import Mathlib

/-!
Verification of the table-extraction repository's core machinery:
a shallow embedding of the JSON value model and of `json.loads`,
the DeepDiff-based reconciliation (`compare_json_files_deepdiff` in
`src/utils/utils.py`), the LLM response parser and retry loop of
`src/agent/extract_table_multi_model_agent.py`, the base64 image codec,
natural-sort folder orchestration, agent construction, and the
thread-context logging utilities of `src/utils/qa_logging.py`.
-/

namespace TableExtract

/-! ## JSON value model

Python `json.loads` produces dicts, lists, strings, numbers, booleans and
None.  Numbers are kept exactly as mantissa times a power of ten, with a
flag recording whether the literal was a float (had a fraction or an
exponent), matching the int/float distinction of the Python parser. -/

inductive Json where
  | null : Json
  | bool (b : Bool) : Json
  | num (mantissa : Int) (exp10 : Int) (isFloat : Bool) : Json
  | str (s : String) : Json
  | arr (elems : List Json) : Json
  | obj (fields : List (String × Json)) : Json

/-! ### Character helpers (punctuation written by code point) -/

def quoteChar : Char := Char.ofNat 34
def backslashChar : Char := Char.ofNat 92
def lbraceChar : Char := Char.ofNat 123
def rbraceChar : Char := Char.ofNat 125
def lbrackChar : Char := Char.ofNat 91
def rbrackChar : Char := Char.ofNat 93
def commaChar : Char := Char.ofNat 44
def colonChar : Char := Char.ofNat 58
def minusChar : Char := Char.ofNat 45
def plusChar : Char := Char.ofNat 43
def dotChar : Char := Char.ofNat 46

/-- JSON whitespace as accepted by the Python scanner: space, tab, LF, CR. -/
def isJsonWs (c : Char) : Bool :=
  c = ' ' || c = Char.ofNat 9 || c = Char.ofNat 10 || c = Char.ofNat 13

def skipWs : List Char → List Char
  | [] => []
  | c :: cs => if isJsonWs c then skipWs cs else c :: cs

def digitVal (c : Char) : Nat := c.toNat - 48

def hexVal (c : Char) : Option Nat :=
  if c.isDigit then some (c.toNat - 48)
  else if 97 ≤ c.toNat ∧ c.toNat ≤ 102 then some (c.toNat - 87)
  else if 65 ≤ c.toNat ∧ c.toNat ≤ 70 then some (c.toNat - 55)
  else none

def simpleEscape (e : Char) : Option Char :=
  if e = quoteChar then some quoteChar
  else if e = backslashChar then some backslashChar
  else if e = Char.ofNat 47 then some (Char.ofNat 47)
  else if e = 'b' then some (Char.ofNat 8)
  else if e = 'f' then some (Char.ofNat 12)
  else if e = 'n' then some (Char.ofNat 10)
  else if e = 'r' then some (Char.ofNat 13)
  else if e = 't' then some (Char.ofNat 9)
  else none

/-- Body of a JSON string literal, after the opening quote: returns the
decoded characters and the input remaining after the closing quote.
Unescaped control characters are rejected (Python strict mode). -/
def parseStringBody : List Char → Option (List Char × List Char)
  | [] => none
  | c :: cs =>
    if c = quoteChar then some ([], cs)
    else if c = backslashChar then
      match cs with
      | [] => none
      | e :: cs2 =>
        if e = 'u' then
          match cs2 with
          | h1 :: h2 :: h3 :: h4 :: cs3 =>
            match hexVal h1, hexVal h2, hexVal h3, hexVal h4 with
            | some a, some b, some c3, some d =>
              (parseStringBody cs3).map
                (fun p => (Char.ofNat (a * 4096 + b * 256 + c3 * 16 + d) :: p.1, p.2))
            | _, _, _, _ => none
          | _ => none
        else
          match simpleEscape e with
          | some ch => (parseStringBody cs2).map (fun p => (ch :: p.1, p.2))
          | none => none
    else if c.toNat < 32 then none
    else (parseStringBody cs).map (fun p => (c :: p.1, p.2))

def takeDigits : List Char → (List Char × List Char)
  | [] => ([], [])
  | c :: cs =>
    if c.isDigit then
      let p := takeDigits cs
      (c :: p.1, p.2)
    else ([], c :: cs)

def digitsToNat (ds : List Char) : Nat :=
  ds.foldl (fun acc c => acc * 10 + digitVal c) 0

/-- Optional fraction part: digits after a dot.  Returns
(fraction digits, rest, fraction present). -/
def parseFracPart : List Char → Option (List Char × List Char × Bool)
  | [] => some ([], [], false)
  | c :: cs =>
    if c = dotChar then
      match takeDigits cs with
      | ([], _) => none
      | (ds, rest) => some (ds, rest, true)
    else some ([], c :: cs, false)

/-- Optional exponent part.  Returns (negative?, digits, rest, present). -/
def parseExpPart : List Char → Option (Bool × List Char × List Char × Bool)
  | [] => some (false, [], [], false)
  | c :: cs =>
    if c = 'e' ∨ c = 'E' then
      let p : Bool × List Char :=
        match cs with
        | [] => (false, [])
        | d :: ds =>
          if d = minusChar then (true, ds)
          else if d = plusChar then (false, ds)
          else (false, d :: ds)
      match takeDigits p.2 with
      | ([], _) => none
      | (ds, rest) => some (p.1, ds, rest, true)
    else some (false, [], c :: cs, false)

/-- Assemble a JSON number literal into mantissa, power of ten and
float flag: value = mantissa * 10 ^ exp10. -/
def combineNumber (neg : Bool) (intDs fracDs : List Char) (expNeg : Bool)
    (expDs : List Char) (isFloat : Bool) : Json :=
  let mantNat : Nat := digitsToNat intDs * 10 ^ fracDs.length + digitsToNat fracDs
  let mant : Int := if neg then -(mantNat : Int) else (mantNat : Int)
  let expVal : Int := if expNeg then -(digitsToNat expDs : Int) else (digitsToNat expDs : Int)
  Json.num mant (expVal - (fracDs.length : Int)) isFloat

/-- JSON number grammar: optional minus, integer part without leading
zeros, optional fraction, optional exponent. -/
def parseNumber (input : List Char) : Option (Json × List Char) :=
  let p : Bool × List Char :=
    match input with
    | [] => (false, [])
    | c :: cs => if c = minusChar then (true, cs) else (false, c :: cs)
  match takeDigits p.2 with
  | ([], _) => none
  | (intDs, rest1) =>
    if 1 < intDs.length ∧ intDs.head? = some '0' then none
    else
      match parseFracPart rest1 with
      | none => none
      | some (fracDs, rest2, hasFrac) =>
        match parseExpPart rest2 with
        | none => none
        | some (expNeg, expDs, rest3, hasExp) =>
          some (combineNumber p.1 intDs fracDs expNeg expDs (hasFrac || hasExp), rest3)

/-- Python dict insertion: a repeated key overwrites the stored value
(`json.loads` keeps the last occurrence), keeping the original position. -/
def objInsert : List (String × Json) → String → Json → List (String × Json)
  | [], k, v => [(k, v)]
  | (k0, v0) :: rest, k, v =>
    if k0 = k then (k0, v) :: rest
    else (k0, v0) :: objInsert rest k v

mutual

/-- Recursive-descent JSON value parser (fuel-indexed to make the mutual
recursion structural; `json_loads` supplies ample fuel). -/
def parseValue : Nat → List Char → Option (Json × List Char)
  | 0, _ => none
  | fuel + 1, input =>
    match skipWs input with
    | [] => none
    | c :: cs =>
      if c = lbraceChar then parseObjBody fuel cs
      else if c = lbrackChar then parseArrBody fuel cs
      else if c = quoteChar then
        match parseStringBody cs with
        | some (body, rest) => some (.str (String.mk body), rest)
        | none => none
      else if c = 't' then
        match cs with
        | 'r' :: 'u' :: 'e' :: rest => some (.bool true, rest)
        | _ => none
      else if c = 'f' then
        match cs with
        | 'a' :: 'l' :: 's' :: 'e' :: rest => some (.bool false, rest)
        | _ => none
      else if c = 'n' then
        match cs with
        | 'u' :: 'l' :: 'l' :: rest => some (.null, rest)
        | _ => none
      else if c = minusChar || c.isDigit then parseNumber (c :: cs)
      else none

/-- Array body, after the opening bracket. -/
def parseArrBody : Nat → List Char → Option (Json × List Char)
  | 0, _ => none
  | fuel + 1, input =>
    match skipWs input with
    | [] => none
    | c :: cs =>
      if c = rbrackChar then some (.arr [], cs)
      else parseArrItems fuel [] (c :: cs)

def parseArrItems : Nat → List Json → List Char → Option (Json × List Char)
  | 0, _, _ => none
  | fuel + 1, acc, input =>
    match parseValue fuel input with
    | none => none
    | some (v, rest) =>
      match skipWs rest with
      | [] => none
      | c :: cs =>
        if c = commaChar then parseArrItems fuel (acc ++ [v]) cs
        else if c = rbrackChar then some (.arr (acc ++ [v]), cs)
        else none

/-- Object body, after the opening brace. -/
def parseObjBody : Nat → List Char → Option (Json × List Char)
  | 0, _ => none
  | fuel + 1, input =>
    match skipWs input with
    | [] => none
    | c :: cs =>
      if c = rbraceChar then some (.obj [], cs)
      else parseObjItems fuel [] (c :: cs)

def parseObjItems : Nat → List (String × Json) → List Char → Option (Json × List Char)
  | 0, _, _ => none
  | fuel + 1, acc, input =>
    match skipWs input with
    | [] => none
    | c :: cs =>
      if c = quoteChar then
        match parseStringBody cs with
        | none => none
        | some (keyChars, rest1) =>
          match skipWs rest1 with
          | [] => none
          | c2 :: cs2 =>
            if c2 = colonChar then
              match parseValue fuel cs2 with
              | none => none
              | some (v, rest2) =>
                let acc2 := objInsert acc (String.mk keyChars) v
                match skipWs rest2 with
                | [] => none
                | c3 :: cs3 =>
                  if c3 = commaChar then parseObjItems fuel acc2 cs3
                  else if c3 = rbraceChar then some (.obj acc2, cs3)
                  else none
            else none
      else none

end

/-- Model of Python `json.loads`: parse one value, allow trailing
whitespace, reject trailing data; `none` models `json.JSONDecodeError`. -/
def json_loads (s : String) : Option Json :=
  let cs := s.toList
  match parseValue (3 * cs.length + 8) cs with
  | some (v, rest) => if (skipWs rest).isEmpty then some v else none
  | none => none

/-! ## DeepDiff model

`DeepDiff(ref, cur, ignore_order=True)` is empty exactly when the two
values agree structurally, treating sequence elements as order-free
(and, since `report_repetition` is left at its default, ignoring
repetition counts) while dict keys must agree exactly.  `jsonDeepDiffEmpty`
decides that emptiness. -/

/-- Numeric equality of two mantissa/exponent pairs. -/
def numValEq (m1 e1 m2 e2 : Int) : Bool :=
  let emin := min e1 e2
  m1 * 10 ^ (e1 - emin).toNat == m2 * 10 ^ (e2 - emin).toNat

def lookupField (k : String) : List (String × Json) → Option Json
  | [] => none
  | (k0, v) :: rest => if k0 = k then some v else lookupField k rest

def jsonEqFuel : Nat → Json → Json → Bool
  | 0, _, _ => false
  | fuel + 1, a, b =>
    match a, b with
    | .null, .null => true
    | .bool x, .bool y => x == y
    | .num m1 e1 f1, .num m2 e2 f2 => f1 == f2 && numValEq m1 e1 m2 e2
    | .str s, .str t => s == t
    | .arr xs, .arr ys =>
      (xs.all fun x => ys.any fun y => jsonEqFuel fuel x y) &&
        (ys.all fun y => xs.any fun x => jsonEqFuel fuel x y)
    | .obj fs, .obj gs =>
      (fs.all fun kv =>
        match lookupField kv.1 gs with
        | some w => jsonEqFuel fuel kv.2 w
        | none => false) &&
        (gs.all fun kv =>
          match lookupField kv.1 fs with
          | some v => jsonEqFuel fuel v kv.2
          | none => false)
    | _, _ => false

mutual

/-- Executable size of a JSON tree (dominates its depth). -/
def jsonSize : Json → Nat
  | .null => 1
  | .bool _ => 1
  | .num _ _ _ => 1
  | .str _ => 1
  | .arr xs => jsonListSize xs + 1
  | .obj fs => jsonFieldsSize fs + 1

def jsonListSize : List Json → Nat
  | [] => 0
  | x :: xs => jsonSize x + jsonListSize xs + 1

def jsonFieldsSize : List (String × Json) → Nat
  | [] => 0
  | kv :: fs => jsonSize kv.2 + jsonFieldsSize fs + 1

end

/-- The fuel bound `jsonSize a + jsonSize b + 1` dominates the nesting
depth, so the fuel clause is never reached on the wrapper's own calls. -/
def jsonDeepDiffEmpty (a b : Json) : Bool :=
  jsonEqFuel (jsonSize a + jsonSize b + 1) a b

/-! ## Cross-model reconciler: `compare_json_files_deepdiff`
(`src/utils/utils.py`, lines 16-75)

The filesystem is abstracted as a map from path to optional raw content:
`none` models `FileNotFoundError` on `open`, unparsable content models
`json.JSONDecodeError`; both are caught by the source and turned into the
outcome string FAILED. -/

def FileSystem : Type := String → Option String

inductive LoadError where
  | fileNotFound : LoadError
  | jsonDecodeError : LoadError

def loadJsonFile (fs : FileSystem) (path : String) : Except LoadError Json :=
  match fs path with
  | none => .error .fileNotFound
  | some content =>
    match json_loads content with
    | none => .error .jsonDecodeError
    | some v => .ok v

/-- The `for other_path in file_paths[1:]` loop: each remaining file is
loaded and diffed against the reference; the first mismatch or load
failure returns FAILED at once. -/
def compareLoop (fs : FileSystem) (reference_data : Json) : List String → String
  | [] => "SUCCESS"
  | other_path :: rest =>
    match loadJsonFile fs other_path with
    | .error _ => "FAILED"
    | .ok current_data =>
      if jsonDeepDiffEmpty reference_data current_data then
        compareLoop fs reference_data rest
      else "FAILED"

def compare_json_files_deepdiff (fs : FileSystem) (file_paths : List String) : String :=
  if file_paths.length < 2 then "NO_COMPARISON"
  else
    match file_paths with
    | [] => "NO_COMPARISON"
    | reference_path :: rest =>
      match loadJsonFile fs reference_path with
      | .error _ => "FAILED"
      | .ok reference_data => compareLoop fs reference_data rest

/-! ## Response parser
(`MultiModalTableInterpreter.call_agent`, lines 172-180)

The raw response text is stripped, a leading markdown JSON fence and a
trailing fence are removed when present (Python `removeprefix` /
`removesuffix`), the result stripped again and fed to `json.loads`.
The `except` branch returns the dictionary
`\x7b"error": "Failed to parse JSON response", "content": response.content\x7d`
— the ErrorResult of kind parse_error, whose raw content is the original
(uncleaned) response text. -/

/-- ASCII whitespace stripped by Python `str.strip`: space, tab, LF, CR,
form feed, vertical tab (non-ASCII Unicode spaces are not modelled). -/
def isPyWhitespace (c : Char) : Bool :=
  c = ' ' || c = Char.ofNat 9 || c = Char.ofNat 10 || c = Char.ofNat 13 ||
    c = Char.ofNat 12 || c = Char.ofNat 11

/-- Python `str.strip()`. -/
def pyStrip (s : String) : String :=
  String.mk (((s.toList.dropWhile isPyWhitespace).reverse.dropWhile isPyWhitespace).reverse)

/-- Python `str.removeprefix`. -/
def removePre (s p : String) : String :=
  if p.toList.isPrefixOf s.toList then String.mk (s.toList.drop p.toList.length) else s

/-- Python `str.removesuffix`. -/
def removeSuf (s p : String) : String :=
  if p.toList.isSuffixOf s.toList then
    String.mk (s.toList.take (s.toList.length - p.toList.length))
  else s

inductive AgentParseResult where
  | parsed (value : Json) : AgentParseResult
  | parseFailure (errorMessage : String) (raw_content : String) : AgentParseResult

def cleanedContent (content : String) : String :=
  pyStrip (removeSuf (removePre (pyStrip content) "```json") "```")

def parseLLMResponse (content : String) : AgentParseResult :=
  match json_loads (cleanedContent content) with
  | some parsed_json => .parsed parsed_json
  | none => .parseFailure "Failed to parse JSON response" content

/-! ## Retrying invoker
(`MultiModalTableInterpreter._call_llm_with_retry`, lines 131-144)

The client is abstracted as a map from attempt index (counted from 0) to
the outcome of `llm.ainvoke`.  The trace records the returned value (or
the terminal error, or `none` for the fall-through when `retries = 0`),
the number of attempts actually made, and the backoff sleeps performed
between consecutive attempts, in order. -/

/-- The terminal failure raised after exhausting retries: the fixed
message together with the wrapped last underlying error (`from e`). -/
structure CallExhausted where
  message : String
  cause : String

structure RetryTrace (α : Type) where
  result : Except CallExhausted (Option α)
  attempts : Nat
  sleeps : List Nat

/-- One pass of `for i in range(retries)`, with `remaining` iterations
left and `i` the current attempt index. -/
def retryAux {α : Type} (client : Nat → Except String α) (retries : Nat) :
    Nat → Nat → RetryTrace α
  | 0, _ => ⟨.ok none, 0, []⟩
  | remaining + 1, i =>
    match client i with
    | .ok response => ⟨.ok (some response), 1, []⟩
    | .error e =>
      if i = retries - 1 then
        ⟨.error ⟨"API call failed after all retries", e⟩, 1, []⟩
      else
        let t := retryAux client retries remaining (i + 1)
        ⟨t.result, t.attempts + 1, 2 ^ i :: t.sleeps⟩

def call_llm_with_retry {α : Type} (client : Nat → Except String α)
    (retries : Nat) : RetryTrace α :=
  retryAux client retries retries 0

/-! ## Image codec (`get_image_as_base64`)

Standard base64 with padding, as produced by Python `base64.b64encode`.
Bytes are naturals below 256. -/

def slashChar : Char := Char.ofNat 47
def padChar : Char := Char.ofNat 61

def base64Alphabet : List Char :=
  ['A', 'B', 'C', 'D', 'E', 'F', 'G', 'H', 'I', 'J', 'K', 'L', 'M',
   'N', 'O', 'P', 'Q', 'R', 'S', 'T', 'U', 'V', 'W', 'X', 'Y', 'Z',
   'a', 'b', 'c', 'd', 'e', 'f', 'g', 'h', 'i', 'j', 'k', 'l', 'm',
   'n', 'o', 'p', 'q', 'r', 's', 't', 'u', 'v', 'w', 'x', 'y', 'z',
   '0', '1', '2', '3', '4', '5', '6', '7', '8', '9', plusChar, slashChar]

def b64Char (n : Nat) : Char := base64Alphabet.getD n 'A'

def b64Index (c : Char) : Option Nat :=
  base64Alphabet.findIdx? (fun x => x = c)

/-- Bytes to six-bit groups, three bytes at a time. -/
def b64EncodeGroups : List Nat → List Nat
  | b0 :: b1 :: b2 :: rest =>
    (b0 / 4) :: ((b0 % 4) * 16 + b1 / 16) :: ((b1 % 16) * 4 + b2 / 64) :: (b2 % 64) ::
      b64EncodeGroups rest
  | [b0, b1] => [b0 / 4, (b0 % 4) * 16 + b1 / 16, (b1 % 16) * 4]
  | [b0] => [b0 / 4, (b0 % 4) * 16]
  | [] => []

def b64PadString (len : Nat) : List Char :=
  if len % 3 = 1 then [padChar, padChar]
  else if len % 3 = 2 then [padChar]
  else []

def b64encode (bytes : List Nat) : String :=
  String.mk ((b64EncodeGroups bytes).map b64Char ++ b64PadString bytes.length)

/-- `get_image_as_base64` reads the image file and base64-encodes its
bytes; a read failure (missing/corrupt file) yields `none`. -/
def get_image_as_base64 (fileBytes : Option (List Nat)) : Option String :=
  match fileBytes with
  | none => none
  | some bytes => some (b64encode bytes)

/-- Six-bit groups back to bytes; a trailing single sextet is invalid. -/
def b64DecodeGroups : List Nat → Option (List Nat)
  | s0 :: s1 :: s2 :: s3 :: rest =>
    (b64DecodeGroups rest).map
      (fun bs => (s0 * 4 + s1 / 16) :: ((s1 % 16) * 16 + s2 / 4) :: ((s2 % 4) * 64 + s3) :: bs)
  | [s0, s1, s2] => some [s0 * 4 + s1 / 16, (s1 % 16) * 16 + s2 / 4]
  | [s0, s1] => some [s0 * 4 + s1 / 16]
  | [_] => none
  | [] => some []

def charsToSextets : List Char → Option (List Nat)
  | [] => some []
  | c :: cs =>
    match b64Index c with
    | none => none
    | some s => (charsToSextets cs).map (fun ss => s :: ss)

/-- Standard base64 decoding: drop padding, map characters back to
sextets, regroup into bytes. -/
def b64decode (s : String) : Option (List Nat) :=
  match charsToSextets (s.toList.filter (fun c => c ≠ padChar)) with
  | none => none
  | some sextets => b64DecodeGroups sextets

/-! ## Natural sort (the `natsort.natsorted` default key)

A filename is decomposed into alternating text and number chunks (digit
runs read as naturals); keys are compared lexicographically.  Keys always
start with a (possibly empty) text chunk, so chunks at equal positions
always have equal shape. -/

inductive NatsortChunk where
  | text (t : String) : NatsortChunk
  | number (n : Nat) : NatsortChunk

def natsortStep (acc : List NatsortChunk) (c : Char) : List NatsortChunk :=
  if c.isDigit then
    match acc with
    | .number n :: rest => .number (n * 10 + digitVal c) :: rest
    | _ => .number (digitVal c) :: acc
  else
    match acc with
    | .text t :: rest => .text (t.push c) :: rest
    | _ => .text (String.mk [c]) :: acc

def natsortKey (s : String) : List NatsortChunk :=
  let raw := (s.toList.foldl natsortStep []).reverse
  match raw with
  | .number _ :: _ => .text "" :: raw
  | _ => raw

/-- Python string comparison: lexicographic on code points. -/
def charListLt : List Char → List Char → Bool
  | [], [] => false
  | [], _ :: _ => true
  | _ :: _, [] => false
  | a :: as, b :: bs =>
    if a.toNat < b.toNat then true
    else if b.toNat < a.toNat then false
    else charListLt as bs

def pyStrLt (a b : String) : Bool := charListLt a.toList b.toList

/-- Chunk order; the mixed cases never arise at aligned positions of two
keys (both sides alternate text/number starting with text). -/
def chunkLt : NatsortChunk → NatsortChunk → Bool
  | .text a, .text b => pyStrLt a b
  | .number a, .number b => decide (a < b)
  | .number _, .text _ => true
  | .text _, .number _ => false

def keyLe : List NatsortChunk → List NatsortChunk → Bool
  | [], _ => true
  | _ :: _, [] => false
  | x :: xs, y :: ys =>
    if chunkLt x y then true
    else if chunkLt y x then false
    else keyLe xs ys

def natsortLe (a b : String) : Bool := keyLe (natsortKey a) (natsortKey b)

/-- Stable insertion: an inserted element goes before the first element
it compares less-or-equal to, so earlier elements win ties — the
stability guarantee of Python sorting. -/
def stableInsert {α : Type} (le : α → α → Bool) (x : α) : List α → List α
  | [] => [x]
  | y :: ys => if le x y then x :: y :: ys else y :: stableInsert le x ys

def stableSort {α : Type} (le : α → α → Bool) (l : List α) : List α :=
  l.foldr (stableInsert le) []

def natsorted (l : List String) : List String := stableSort natsortLe l

/-! ## Batch orchestrator, sequential mode
(`process_folder_sequentially`, lines 190-250)

The folder is abstracted by a directory flag and its listing; image
encoding by a map from filename to the optional base64 string
(`get_image_as_base64` result, where the empty string is also falsy in
the Python guard `if not table_image_b64`); the agent call by a map from
the base64 payload to either the returned JSON value or a raised
exception's message.  The function returns the aggregated list, which the
source also persists verbatim to the output path. -/

def supported_extensions : List String := [".png", ".jpg", ".jpeg", ".bmp", ".gif"]

/-- `f.lower().endswith(supported_extensions)`. -/
def hasSupportedExtension (filename : String) : Bool :=
  supported_extensions.any
    (fun ext => ext.toList.isSuffixOf (filename.toList.map Char.toLower))

/-- `[f for f in natsort.natsorted(os.listdir(folder_path)) if ...]`. -/
def listImageFiles (listing : List String) : List String :=
  (natsorted listing).filter hasSupportedExtension

def encodeErrorEntry (filename : String) : Json :=
  .obj [("error", .str "Failed to encode image"), ("filename", .str filename)]

def callErrorEntry (filename e : String) : Json :=
  .obj [("error", .str e), ("filename", .str filename)]

/-- `if isinstance(response, list) and len(response) == 1: response[0]`. -/
def unwrapSingletonList : Json → Json
  | .arr [x] => x
  | v => v

def process_folder_loop (encode : String → Option String)
    (callAgent : String → Except String Json) :
    List String → List Json → List Json
  | [], acc => acc
  | filename :: rest, acc =>
    match encode filename with
    | none =>
      process_folder_loop encode callAgent rest (acc ++ [encodeErrorEntry filename])
    | some b64 =>
      if b64 = "" then
        process_folder_loop encode callAgent rest (acc ++ [encodeErrorEntry filename])
      else
        match callAgent b64 with
        | .ok response =>
          process_folder_loop encode callAgent rest (acc ++ [unwrapSingletonList response])
        | .error e =>
          process_folder_loop encode callAgent rest (acc ++ [callErrorEntry filename e])

def process_folder_sequentially (isDir : Bool) (listing : List String)
    (encode : String → Option String)
    (callAgent : String → Except String Json) : Option (List Json) :=
  if isDir then
    some (process_folder_loop encode callAgent (listImageFiles listing) [])
  else none

/-- The value a single image contributes to its output slot. -/
def slotResult (encode : String → Option String)
    (callAgent : String → Except String Json) (filename : String) : Json :=
  match encode filename with
  | none => encodeErrorEntry filename
  | some b64 =>
    if b64 = "" then encodeErrorEntry filename
    else
      match callAgent b64 with
      | .ok response => unwrapSingletonList response
      | .error e => callErrorEntry filename e

/-! ## Agent construction
(`MultiModalTableInterpreter.__init__`, lines 45-71)

The provider membership test is the first statement of the constructor;
`os.makedirs(self.log_base_path, exist_ok=True)` is its only side effect,
recorded in an effect trace to make the ordering observable. -/

structure MultiModalTableInterpreter where
  provider : String
  model_name : String
  log_base_path : String
  system_prompt_path : String

inductive InitEffect where
  | makedirs (path : String) : InitEffect

def valid_providers : List String := ["openai", "google", "bedrock"]

def interpreter_init (provider model_name log_base_path system_prompt_path : String) :
    Except String MultiModalTableInterpreter × List InitEffect :=
  if provider ∈ valid_providers then
    (.ok ⟨provider, model_name, log_base_path, system_prompt_path⟩,
      [.makedirs log_base_path])
  else
    (.error "Provider must be one of openai, google, or bedrock", [])

/-! ## Thread-context logging (`src/utils/qa_logging.py`)

The thread-local slot is `none` when the attribute is absent and
`some v` when set, where `v : Option String` is the stored value (Python
permits storing `None` itself).  `getattr(_, 'context_id', None)` makes
an absent attribute indistinguishable from a stored `None`. -/

def set_thread_context_id (_slot : Option (Option String))
    (context_id : Option String) : Option (Option String) :=
  some context_id

def clear_thread_context_id (_slot : Option (Option String)) :
    Option (Option String) :=
  none

/-- Raises (`.error`) when the stored id is `None` or absent. -/
def get_thread_context_id (slot : Option (Option String)) :
    Except String (Option String) :=
  match slot.getD none with
  | none => .error "invalid thread_context_id"
  | some s => .ok (some s)

/-- `log_message` first calls `get_thread_context_id`, then branches on
`context_id is not None`; the `.ok` value is the formatted line. -/
def log_message (slot : Option (Option String)) (log_data : String) :
    Except String String :=
  match get_thread_context_id slot with
  | .error e => .error e
  | .ok context_id =>
    match context_id with
    | some cid => .ok ("[CtxID: " ++ cid ++ "] " ++ log_data)
    | none => .ok log_data

/-! ## Concrete fixtures -/

/-- A filesystem with the spec's reconciliation example files. -/
def exampleFS : FileSystem := fun p =>
  if p = "ref.json" then some "[\x7b\"a\": 1\x7d, \x7b\"b\": 2\x7d]"
  else if p = "cand.json" then some "[\x7b\"b\": 2\x7d, \x7b\"a\": 1\x7d]"
  else if p = "bad.json" then some "[\x7b\"a\": 1\x7d, \x7b\"b\": 3\x7d]"
  else none

/-! # Theorems -/

/-! ## Reconciler lemmas -/

theorem compareLoop_outcomes (fs : FileSystem) (refData : Json) (rest : List String) :
    compareLoop fs refData rest = "SUCCESS" ∨ compareLoop fs refData rest = "FAILED" := by
  induction rest with
  | nil => left; rfl
  | cons p rest ih =>
    cases hload : loadJsonFile fs p with
    | error e => simp [compareLoop, hload]
    | ok d =>
      by_cases heq : jsonDeepDiffEmpty refData d
      · simpa [compareLoop, hload, heq] using ih
      · simp [compareLoop, hload, heq]

theorem compareLoop_success (fs : FileSystem) (refData : Json) (rest : List String)
    (h : ∀ p ∈ rest, ∃ d, loadJsonFile fs p = .ok d ∧ jsonDeepDiffEmpty refData d = true) :
    compareLoop fs refData rest = "SUCCESS" := by
  induction rest with
  | nil => rfl
  | cons p rest ih =>
    obtain ⟨d, hload, heq⟩ := h p (by simp)
    have hrest := ih (fun q hq => h q (by simp [hq]))
    simp [compareLoop, hload, heq, hrest]

/-- Claim C6: for every list of file paths and every filesystem content,
`compare_json_files_deepdiff` terminates with one of exactly the three
outcome labels SUCCESS, FAILED or NO_COMPARISON, and never propagates an
exception (every missing-file and invalid-JSON condition is mapped to
FAILED inside the function, which is total). -/
theorem compare_total_outcomes (fs : FileSystem) (paths : List String) :
    compare_json_files_deepdiff fs paths = "NO_COMPARISON" ∨
      compare_json_files_deepdiff fs paths = "SUCCESS" ∨
      compare_json_files_deepdiff fs paths = "FAILED" := by
  unfold compare_json_files_deepdiff
  by_cases h : paths.length < 2
  · simp [h]
  · cases paths with
    | nil => simp at h
    | cons ref rest =>
      rw [if_neg h]
      cases hload : loadJsonFile fs ref with
      | error e => simp [hload]
      | ok refData =>
        rcases compareLoop_outcomes fs refData rest with hs | hf
        · simp [hload, hs]
        · simp [hload, hf]

/-- Claim C3: the compare operation returns NO_COMPARISON for fewer than
2 paths; returns SUCCESS when every remaining file's JSON equals the
reference under the order-insensitive comparison (concretely, reference
[ a 1, b 2 ] against reordered candidate [ b 2, a 1 ] yields SUCCESS);
returns FAILED on a structural mismatch (candidate [ a 1, b 3 ]); and
short-circuits at the first mismatching pair — the outcome is FAILED
whatever paths follow the mismatch. -/
theorem compare_reconciler_spec :
    (∀ (fs : FileSystem) (paths : List String), paths.length < 2 →
        compare_json_files_deepdiff fs paths = "NO_COMPARISON") ∧
    compare_json_files_deepdiff exampleFS ["ref.json", "cand.json"] = "SUCCESS" ∧
    compare_json_files_deepdiff exampleFS ["ref.json", "bad.json"] = "FAILED" ∧
    (∀ (fs : FileSystem) (ref : String) (rest : List String) (refData : Json),
        rest ≠ [] → loadJsonFile fs ref = .ok refData →
        (∀ p ∈ rest, ∃ d, loadJsonFile fs p = .ok d ∧ jsonDeepDiffEmpty refData d = true) →
        compare_json_files_deepdiff fs (ref :: rest) = "SUCCESS") ∧
    (∀ (fs : FileSystem) (ref p : String) (rest : List String) (refData d : Json),
        loadJsonFile fs ref = .ok refData → loadJsonFile fs p = .ok d →
        jsonDeepDiffEmpty refData d = false →
        compare_json_files_deepdiff fs (ref :: p :: rest) = "FAILED") := by
  refine ⟨?_, ?_, ?_, ?_, ?_⟩
  · intro fs paths h
    unfold compare_json_files_deepdiff
    rw [if_pos h]
  · decide
  · decide
  · intro fs ref rest refData hne href hall
    unfold compare_json_files_deepdiff
    have hlen : ¬((ref :: rest).length < 2) := by
      cases rest with
      | nil => exact absurd rfl hne
      | cons q qs => simp
    rw [if_neg hlen]
    simp [href, compareLoop_success fs refData rest hall]
  · intro fs ref p rest refData d href hp heq
    unfold compare_json_files_deepdiff
    have hlen : ¬((ref :: p :: rest).length < 2) := by simp
    rw [if_neg hlen]
    simp [href, compareLoop, hp, heq]

theorem compare_reconciler_spec_witness :
    compare_json_files_deepdiff exampleFS ["ref.json"] = "NO_COMPARISON" :=
  compare_reconciler_spec.1 exampleFS ["ref.json"] (by decide)

/-! ## Response parser -/

/-- Claim C2: the response parser trims whitespace, strips a
leading/trailing markdown JSON fence when present, and attempts a JSON
parse; on success it returns the parsed value unchanged, on failure it
returns the error result (the parse-error dictionary) carrying the
original raw content, and never raises past the parser: the input
"not json" yields the error result with raw content "not json". -/
theorem response_parser_spec :
    (∀ (content : String) (v : Json),
        json_loads (cleanedContent content) = some v →
        parseLLMResponse content = .parsed v) ∧
    (∀ content : String,
        json_loads (cleanedContent content) = none →
        parseLLMResponse content =
          .parseFailure "Failed to parse JSON response" content) ∧
    parseLLMResponse "not json" =
      .parseFailure "Failed to parse JSON response" "not json" ∧
    parseLLMResponse "```json\n\x7b\"a\": 1\x7d\n```" =
      .parsed (.obj [("a", .num 1 0 false)]) := by
  refine ⟨?_, ?_, ?_, ?_⟩
  · intro content v h
    unfold parseLLMResponse
    rw [h]
  · intro content h
    unfold parseLLMResponse
    rw [h]
  · rfl
  · rfl

theorem response_parser_spec_witness :
    parseLLMResponse "[2]" = .parsed (.arr [.num 2 0 false]) ∧
    parseLLMResponse "nope" = .parseFailure "Failed to parse JSON response" "nope" :=
  ⟨response_parser_spec.1 "[2]" (.arr [.num 2 0 false]) (by rfl),
    response_parser_spec.2.1 "nope" (by rfl)⟩

/-! ## Provider validation -/

/-- Claim C5: constructing the agent with a provider identifier outside
the fixed set rejects at once with the configuration error and performs
no side effect (the makedirs effect trace stays empty: fail-fast), while
any of the three supported identifiers constructs the immutable
configuration without raising. -/
theorem provider_validation_spec :
    (∀ provider model_name log_base_path system_prompt_path : String,
        provider ∉ valid_providers →
        interpreter_init provider model_name log_base_path system_prompt_path =
          (.error "Provider must be one of openai, google, or bedrock", [])) ∧
    (∀ provider model_name log_base_path system_prompt_path : String,
        provider ∈ valid_providers →
        interpreter_init provider model_name log_base_path system_prompt_path =
          (.ok ⟨provider, model_name, log_base_path, system_prompt_path⟩,
            [.makedirs log_base_path])) := by
  constructor
  · intro provider mn lbp spp h
    unfold interpreter_init
    rw [if_neg h]
  · intro provider mn lbp spp h
    unfold interpreter_init
    rw [if_pos h]

theorem provider_validation_spec_witness :
    interpreter_init "anthropic" "m" "logs" "p" =
      (.error "Provider must be one of openai, google, or bedrock", []) ∧
    interpreter_init "openai" "m" "logs" "p" =
      (.ok ⟨"openai", "m", "logs", "p"⟩, [.makedirs "logs"]) :=
  ⟨provider_validation_spec.1 "anthropic" "m" "logs" "p" (by decide),
    provider_validation_spec.2 "openai" "m" "logs" "p" (by decide)⟩

/-! ## Logging context -/

/-- Claim C9: on a thread whose context slot was never set (or was
cleared), `log_message` raises because `get_thread_context_id` raises on
a missing id; consequently every successfully logged line carries the
context-id prefix, and the branch of `log_message` for a missing context
id is unreachable. -/
theorem logging_context_required_spec :
    (∀ log_data : String,
        log_message none log_data = .error "invalid thread_context_id") ∧
    (∀ (slot : Option (Option String)) (log_data : String),
        log_message (clear_thread_context_id slot) log_data =
          .error "invalid thread_context_id") ∧
    (∀ (slot : Option (Option String)) (log_data result : String),
        log_message slot log_data = .ok result →
        ∃ cid, get_thread_context_id slot = .ok (some cid) ∧
          result = "[CtxID: " ++ cid ++ "] " ++ log_data) := by
  refine ⟨?_, ?_, ?_⟩
  · intro log_data; rfl
  · intro slot log_data; rfl
  · intro slot log_data result h
    match hslot : slot with
    | none => simp [log_message, get_thread_context_id] at h
    | some none => simp [log_message, get_thread_context_id] at h
    | some (some cid) =>
      refine ⟨cid, rfl, ?_⟩
      simpa [log_message, get_thread_context_id] using h.symm

theorem logging_context_required_spec_witness :
    ∃ cid, get_thread_context_id (some (some "abc")) = .ok (some cid) ∧
      "[CtxID: abc] msg" = "[CtxID: " ++ cid ++ "] " ++ "msg" :=
  logging_context_required_spec.2.2 (some (some "abc")) "msg" "[CtxID: abc] msg" rfl

/-! ## Singleton unwrapping -/

/-- Claim C10: in the sequential batch loop, an agent response that is a
list of length exactly one is unwrapped to its single element before
being stored in the image's result slot, and every other response value
(empty or longer list, object, scalar) is stored unchanged. -/
theorem singleton_unwrap_spec :
    (∀ x : Json, unwrapSingletonList (.arr [x]) = x) ∧
    (∀ v : Json, (∀ x : Json, v ≠ .arr [x]) → unwrapSingletonList v = v) ∧
    (∀ (encode : String → Option String) (callAgent : String → Except String Json)
        (filename b64 : String) (r : Json),
        encode filename = some b64 → b64 ≠ "" → callAgent b64 = .ok r →
        slotResult encode callAgent filename = unwrapSingletonList r) := by
  refine ⟨?_, ?_, ?_⟩
  · intro x; rfl
  · intro v h
    cases v with
    | null => rfl
    | bool b => rfl
    | num m e f => rfl
    | str s => rfl
    | obj fields => rfl
    | arr elems =>
      cases elems with
      | nil => rfl
      | cons x tail =>
        cases tail with
        | nil => exact absurd rfl (h x)
        | cons y t => rfl
  · intro encode callAgent filename b64 r henc hb hcall
    unfold slotResult
    rw [henc]
    simp [hb, hcall]

theorem singleton_unwrap_spec_witness :
    (unwrapSingletonList (.arr [.num 7 0 false, .num 8 0 false]) =
      .arr [.num 7 0 false, .num 8 0 false]) ∧
    slotResult (fun _ => some "QQ==") (fun _ => .ok (.arr [.num 7 0 false])) "a.png" =
      unwrapSingletonList (.arr [.num 7 0 false]) :=
  ⟨singleton_unwrap_spec.2.1 (.arr [.num 7 0 false, .num 8 0 false]) (by intro x h; simp at h),
    singleton_unwrap_spec.2.2 (fun _ => some "QQ==") (fun _ => .ok (.arr [.num 7 0 false]))
      "a.png" "QQ==" (.arr [.num 7 0 false]) rfl (by decide) rfl⟩

/-! ## Sequential batch processing -/

theorem process_folder_loop_eq (encode : String → Option String)
    (callAgent : String → Except String Json) (files : List String) :
    ∀ acc : List Json,
      process_folder_loop encode callAgent files acc =
        acc ++ files.map (slotResult encode callAgent) := by
  induction files with
  | nil => intro acc; simp [process_folder_loop]
  | cons f rest ih =>
    intro acc
    cases henc : encode f with
    | none => simp [process_folder_loop, slotResult, henc, ih]
    | some b64 =>
      by_cases hb : b64 = ""
      · simp [process_folder_loop, slotResult, henc, hb, ih]
      · cases hcall : callAgent b64 with
        | ok r => simp [process_folder_loop, slotResult, henc, hb, hcall, ih]
        | error e => simp [process_folder_loop, slotResult, henc, hb, hcall, ih]

/-- Claim C4: sequential batch processing over an existing folder always
produces (and persists) an output list whose length is exactly the
number of supported images, index-aligned with the naturally sorted
filename order; an image whose encoding fails, or whose invocation
raises, occupies its slot with an inline error entry while processing
continues — the whole batch never aborts. -/
theorem process_folder_sequential_spec (listing : List String)
    (encode : String → Option String) (callAgent : String → Except String Json) :
    process_folder_sequentially true listing encode callAgent =
      some ((listImageFiles listing).map (slotResult encode callAgent)) ∧
    (∀ out, process_folder_sequentially true listing encode callAgent = some out →
        out.length = (listImageFiles listing).length) ∧
    (∀ filename, encode filename = none →
        slotResult encode callAgent filename = encodeErrorEntry filename) ∧
    (∀ filename b64 e, encode filename = some b64 → b64 ≠ "" →
        callAgent b64 = .error e →
        slotResult encode callAgent filename = callErrorEntry filename e) := by
  have hmain : process_folder_sequentially true listing encode callAgent =
      some ((listImageFiles listing).map (slotResult encode callAgent)) := by
    unfold process_folder_sequentially
    simp [process_folder_loop_eq]
  refine ⟨hmain, ?_, ?_, ?_⟩
  · intro out hout
    rw [hmain] at hout
    have h := Option.some.inj hout
    rw [← h]
    simp
  · intro filename h
    unfold slotResult
    rw [h]
  · intro filename b64 e h hb hcall
    unfold slotResult
    rw [h]
    simp [hb, hcall]

theorem process_folder_sequential_spec_witness :
    process_folder_sequentially true ["b.png", "a.png"] (fun _ => none)
        (fun _ => .ok Json.null) =
      some [encodeErrorEntry "a.png", encodeErrorEntry "b.png"] ∧
    slotResult (fun _ => none) (fun _ => .ok Json.null) "a.png" =
      encodeErrorEntry "a.png" := by
  have h := process_folder_sequential_spec ["b.png", "a.png"] (fun _ => none)
    (fun _ => .ok Json.null)
  exact ⟨by rw [h.1]; rfl, h.2.2.1 "a.png" rfl⟩

/-! ## Natural sort ordering -/

/-- Claim C7: the batch orchestrator keeps only filenames with a
supported extension and orders them by numeric-aware natural sort: any
folder listing holding exactly section_1.jpg, section_2.jpg and
section_10.jpg is processed in the order 1, 2, 10, not the lexical
order 1, 10, 2. -/
theorem natural_sort_order_spec :
    (∀ (listing : List String) (f : String),
        f ∈ listImageFiles listing → hasSupportedExtension f = true) ∧
    (∀ listing : List String,
        listing.Perm ["section_1.jpg", "section_2.jpg", "section_10.jpg"] →
        listImageFiles listing =
          ["section_1.jpg", "section_2.jpg", "section_10.jpg"]) := by
  constructor
  · intro listing f hf
    exact (List.mem_filter.1 hf).2
  · intro listing hperm
    have hlen : listing.length = 3 := hperm.length_eq
    cases listing with
    | nil => simp at hlen
    | cons x l1 =>
      cases l1 with
      | nil => simp at hlen
      | cons y l2 =>
        cases l2 with
        | nil => simp at hlen
        | cons z l3 =>
          cases l3 with
          | cons w l4 => simp at hlen
          | nil =>
            have hx : x ∈ ["section_1.jpg", "section_2.jpg", "section_10.jpg"] :=
              hperm.subset (by simp)
            have hy : y ∈ ["section_1.jpg", "section_2.jpg", "section_10.jpg"] :=
              hperm.subset (by simp)
            have hz : z ∈ ["section_1.jpg", "section_2.jpg", "section_10.jpg"] :=
              hperm.subset (by simp)
            fin_cases hx <;> fin_cases hy <;> fin_cases hz <;>
              revert hperm <;> decide

theorem natural_sort_order_spec_witness :
    listImageFiles ["section_10.jpg", "section_1.jpg", "section_2.jpg"] =
      ["section_1.jpg", "section_2.jpg", "section_10.jpg"] :=
  natural_sort_order_spec.2 ["section_10.jpg", "section_1.jpg", "section_2.jpg"]
    (by decide)

/-! ## Base64 round-trip -/

theorem b64EncodeGroups_lt : ∀ (bytes : List Nat), (∀ b ∈ bytes, b < 256) →
    ∀ s ∈ b64EncodeGroups bytes, s < 64
  | [], _, s, hs => by simp [b64EncodeGroups] at hs
  | [b0], h, s, hs => by
    have h0 := h b0 (by simp)
    simp [b64EncodeGroups] at hs
    rcases hs with rfl | rfl <;> omega
  | [b0, b1], h, s, hs => by
    have h0 := h b0 (by simp)
    have h1 := h b1 (by simp)
    simp [b64EncodeGroups] at hs
    rcases hs with rfl | rfl | rfl <;> omega
  | b0 :: b1 :: b2 :: rest, h, s, hs => by
    have h0 := h b0 (by simp)
    have h1 := h b1 (by simp)
    have h2 := h b2 (by simp)
    have ih := b64EncodeGroups_lt rest (fun b hb => h b (by simp [hb]))
    simp [b64EncodeGroups] at hs
    rcases hs with rfl | rfl | rfl | rfl | hmem
    · omega
    · omega
    · omega
    · omega
    · exact ih s hmem

theorem b64DecodeGroups_encode : ∀ (bytes : List Nat), (∀ b ∈ bytes, b < 256) →
    b64DecodeGroups (b64EncodeGroups bytes) = some bytes
  | [], _ => rfl
  | [b0], h => by
    have h0 := h b0 (by simp)
    simp [b64EncodeGroups, b64DecodeGroups]
    omega
  | [b0, b1], h => by
    have h0 := h b0 (by simp)
    have h1 := h b1 (by simp)
    simp [b64EncodeGroups, b64DecodeGroups]
    constructor <;> omega
  | b0 :: b1 :: b2 :: rest, h => by
    have h0 := h b0 (by simp)
    have h1 := h b1 (by simp)
    have h2 := h b2 (by simp)
    have ih := b64DecodeGroups_encode rest (fun b hb => h b (by simp [hb]))
    simp [b64EncodeGroups, b64DecodeGroups, ih]
    refine ⟨by omega, by omega, by omega⟩

theorem b64Index_b64Char : ∀ n < 64, b64Index (b64Char n) = some n := by decide

theorem b64Char_ne_pad : ∀ n < 64, b64Char n ≠ padChar := by decide

theorem filter_encode_chars (G : List Nat) (hG : ∀ s ∈ G, s < 64) (len : Nat) :
    (G.map b64Char ++ b64PadString len).filter (fun c => c ≠ padChar) =
      G.map b64Char := by
  rw [List.filter_append]
  have h1 : (G.map b64Char).filter (fun c => c ≠ padChar) = G.map b64Char := by
    apply List.filter_eq_self.2
    intro c hc
    obtain ⟨s, hs, rfl⟩ := List.mem_map.1 hc
    simpa using b64Char_ne_pad s (hG s hs)
  have h2 : (b64PadString len).filter (fun c => c ≠ padChar) = [] := by
    unfold b64PadString
    by_cases hl : len % 3 = 1
    · simp [hl]
    · by_cases hl2 : len % 3 = 2 <;> simp [hl, hl2]
  rw [h1, h2, List.append_nil]

theorem charsToSextets_map (G : List Nat) (hG : ∀ s ∈ G, s < 64) :
    charsToSextets (G.map b64Char) = some G := by
  induction G with
  | nil => rfl
  | cons s rest ih =>
    have hs := hG s (by simp)
    have hrest := ih (fun q hq => hG q (by simp [hq]))
    simp [charsToSextets, b64Index_b64Char s hs, hrest]

/-- Claim C8: for every byte sequence read from an image file, the
base64 string produced by `get_image_as_base64` decodes back to exactly
the original bytes — base64 decoding composed with the codec's encoding
is the identity on byte sequences. -/
theorem base64_roundtrip_spec (bytes : List Nat) (h : ∀ b ∈ bytes, b < 256) :
    get_image_as_base64 (some bytes) = some (b64encode bytes) ∧
    b64decode (b64encode bytes) = some bytes := by
  refine ⟨rfl, ?_⟩
  have hG : ∀ s ∈ b64EncodeGroups bytes, s < 64 := b64EncodeGroups_lt bytes h
  unfold b64decode b64encode
  have htl : (String.mk ((b64EncodeGroups bytes).map b64Char ++
      b64PadString bytes.length)).toList =
      (b64EncodeGroups bytes).map b64Char ++ b64PadString bytes.length := rfl
  rw [htl, filter_encode_chars _ hG, charsToSextets_map _ hG]
  exact b64DecodeGroups_encode bytes h

theorem base64_roundtrip_spec_witness :
    b64decode (b64encode [77, 97, 110]) = some [77, 97, 110] :=
  (base64_roundtrip_spec [77, 97, 110] (by decide)).2

/-! ## Retrying invoker -/

theorem retryAux_step {α : Type} (client : Nat → Except String α)
    (retries remaining i : Nat) :
    retryAux client retries (remaining + 1) i =
      match client i with
      | .ok response => ⟨.ok (some response), 1, []⟩
      | .error e =>
        if i = retries - 1 then
          ⟨.error ⟨"API call failed after all retries", e⟩, 1, []⟩
        else
          let t := retryAux client retries remaining (i + 1)
          ⟨t.result, t.attempts + 1, 2 ^ i :: t.sleeps⟩ := rfl

theorem retryAux_ok {α : Type} (client : Nat → Except String α)
    (retries remaining i : Nat) (v : α) (h : client i = .ok v) :
    retryAux client retries (remaining + 1) i = ⟨.ok (some v), 1, []⟩ := by
  rw [retryAux_step, h]

theorem retryAux_err_last {α : Type} (client : Nat → Except String α)
    (retries remaining i : Nat) (e : String) (h : client i = .error e)
    (hi : i = retries - 1) :
    retryAux client retries (remaining + 1) i =
      ⟨.error ⟨"API call failed after all retries", e⟩, 1, []⟩ := by
  rw [retryAux_step, h]
  simp [hi]

theorem retryAux_err_cont {α : Type} (client : Nat → Except String α)
    (retries remaining i : Nat) (e : String) (h : client i = .error e)
    (hi : ¬(i = retries - 1)) :
    retryAux client retries (remaining + 1) i =
      ⟨(retryAux client retries remaining (i + 1)).result,
        (retryAux client retries remaining (i + 1)).attempts + 1,
        2 ^ i :: (retryAux client retries remaining (i + 1)).sleeps⟩ := by
  rw [retryAux_step, h]
  simp [hi]

/-- Claim C1: with a client failing the first two attempts and
succeeding on the third, the retrying invoker returns the success
response after exactly 3 attempts with exactly the two backoff waits
2^0 and 2^1; with a client that always fails and maxRetries = 3, it
makes exactly 3 attempts, waits 2^attempt units between consecutive
attempts, and fails terminally with the exhaustion error wrapping the
last underlying error. -/
theorem retry_invoker_spec :
    (∀ (α : Type) (client : Nat → Except String α) (retries : Nat)
        (e0 e1 : String) (v : α),
        3 ≤ retries → client 0 = .error e0 → client 1 = .error e1 →
        client 2 = .ok v →
        call_llm_with_retry client retries = ⟨.ok (some v), 3, [2 ^ 0, 2 ^ 1]⟩) ∧
    (∀ (α : Type) (client : Nat → Except String α) (errs : Nat → String),
        (∀ i, client i = .error (errs i)) →
        call_llm_with_retry client 3 =
          ⟨.error ⟨"API call failed after all retries", errs 2⟩, 3, [2 ^ 0, 2 ^ 1]⟩) := by
  constructor
  · intro α client retries e0 e1 v hr h0 h1 h2
    obtain ⟨n, rfl⟩ : ∃ n, retries = n + 3 := ⟨retries - 3, by omega⟩
    have s2 : retryAux client (n + 3) (n + 1) 2 = ⟨.ok (some v), 1, []⟩ :=
      retryAux_ok client (n + 3) n 2 v h2
    have s1 : retryAux client (n + 3) (n + 2) 1 = ⟨.ok (some v), 2, [2 ^ 1]⟩ := by
      refine (retryAux_err_cont client (n + 3) (n + 1) 1 e1 h1 (by omega)).trans ?_
      rw [show (1 : Nat) + 1 = 2 from rfl, s2]
    have s0 : retryAux client (n + 3) (n + 3) 0 =
        ⟨.ok (some v), 3, [2 ^ 0, 2 ^ 1]⟩ := by
      refine (retryAux_err_cont client (n + 3) (n + 2) 0 e0 h0 (by omega)).trans ?_
      rw [show (0 : Nat) + 1 = 1 from rfl, s1]
    exact s0
  · intro α client errs h
    have s2 : retryAux client 3 1 2 =
        ⟨.error ⟨"API call failed after all retries", errs 2⟩, 1, []⟩ :=
      retryAux_err_last client 3 0 2 (errs 2) (h 2) (by omega)
    have s1 : retryAux client 3 2 1 =
        ⟨.error ⟨"API call failed after all retries", errs 2⟩, 2, [2 ^ 1]⟩ := by
      refine (retryAux_err_cont client 3 1 1 (errs 1) (h 1) (by omega)).trans ?_
      rw [show (1 : Nat) + 1 = 2 from rfl, s2]
    have s0 : retryAux client 3 3 0 =
        ⟨.error ⟨"API call failed after all retries", errs 2⟩, 3, [2 ^ 0, 2 ^ 1]⟩ := by
      refine (retryAux_err_cont client 3 2 0 (errs 0) (h 0) (by omega)).trans ?_
      rw [show (0 : Nat) + 1 = 1 from rfl, s1]
    exact s0

theorem retry_invoker_spec_witness :
    call_llm_with_retry
        (fun i => if i < 2 then (.error "err" : Except String Nat) else .ok 42) 5 =
      ⟨.ok (some 42), 3, [2 ^ 0, 2 ^ 1]⟩ ∧
    call_llm_with_retry (fun i => (.error (toString i) : Except String Nat)) 3 =
      ⟨.error ⟨"API call failed after all retries", toString 2⟩, 3, [2 ^ 0, 2 ^ 1]⟩ :=
  ⟨retry_invoker_spec.1 Nat (fun i => if i < 2 then .error "err" else .ok 42) 5
      "err" "err" 42 (by omega) rfl rfl rfl,
    retry_invoker_spec.2 Nat (fun i => .error (toString i)) toString (fun _ => rfl)⟩

end TableExtract
